import Mathlib

/-!
Verification development for the UtilityCalculator repository.

Part 1 embeds `src/utility_calculator` (constants.py, units.py, gas.py,
hvac.py): pure arithmetic over exact rationals standing for Python floats,
with Python exceptions (`ValueError`, `ZeroDivisionError`) made explicit
through `Except`.

Part 2 embeds `src/pjm/client.py` (`PJMDataMinerClient`): the retry loop
`_get`, the CSV/JSON sniffing of `_parse_response` / `_looks_like_csv`,
column normalization `_snake_case`, output encoding `_format_output`, and
the public operations `fetch_feed` and `fetch_gen_by_fuel`.  External
collaborators (the HTTP transport, stdlib `json.loads`, `pandas`) are
modelled at the interface the client uses, as prescribed for out-of-scope
dependencies; every piece of the repository's own code is translated
statement by statement.  The HTTP transport is an oracle assigning to each
attempt index either a raised transport error or a concrete response, and
the timing side effect `time.sleep` is recorded as the list of slept
durations, in order.
-/

namespace UtilityCalculator

/-- Python exceptions surfaced by the unit-conversion module. -/
inductive PyErr where
  | valueError (msg : String)
  | zeroDivision
  deriving DecidableEq

/-- constants.py: `BTUH_PER_TON = 12_000.0`. -/
def BTUH_PER_TON : ℚ := 12000

/-- constants.py: `BTU_PER_MMBTU = 1_000_000.0`. -/
def BTU_PER_MMBTU : ℚ := 1000000

/-- constants.py: `HEATING_VALUE_MMBTU_PER_MCF = 1.035`. -/
def HEATING_VALUE_MMBTU_PER_MCF : ℚ := 1035 / 1000

/-- Python float division: raises `ZeroDivisionError` on a zero divisor,
otherwise yields the quotient. -/
def pyDiv (a b : ℚ) : Except PyErr ℚ :=
  if b = 0 then .error .zeroDivision else .ok (a / b)

/-- units.py: `btuh_to_mmbtuh(btuh) = btuh / BTU_PER_MMBTU`
(the divisor is the nonzero constant, so no raise is possible). -/
def btuh_to_mmbtuh (btuh : ℚ) : ℚ := btuh / BTU_PER_MMBTU

/-- units.py: `mmbtuh_to_btuh(mmbtuh) = mmbtuh * BTU_PER_MMBTU`. -/
def mmbtuh_to_btuh (mmbtuh : ℚ) : ℚ := mmbtuh * BTU_PER_MMBTU

/-- gas.py: `mcf_to_mmbtu(mcf, hv) = mcf * hv`. -/
def mcf_to_mmbtu (mcf hv_mmbtu_per_mcf : ℚ) : ℚ := mcf * hv_mmbtu_per_mcf

/-- gas.py: `mmbtu_to_mcf(mmbtu, hv) = mmbtu / hv` — an unguarded division
by the caller-supplied heating value. -/
def mmbtu_to_mcf (mmbtu hv_mmbtu_per_mcf : ℚ) : Except PyErr ℚ :=
  pyDiv mmbtu hv_mmbtu_per_mcf

/-- gas.py: `mcf_to_dth` delegates to `mcf_to_mmbtu`. -/
def mcf_to_dth (mcf hv_mmbtu_per_mcf : ℚ) : ℚ := mcf_to_mmbtu mcf hv_mmbtu_per_mcf

/-- gas.py: `dth_to_mcf` delegates to `mmbtu_to_mcf`. -/
def dth_to_mcf (dth hv_mmbtu_per_mcf : ℚ) : Except PyErr ℚ :=
  mmbtu_to_mcf dth hv_mmbtu_per_mcf

/-- hvac.py: `tons_to_btuh(tons) = tons * BTUH_PER_TON`. -/
def tons_to_btuh (tons : ℚ) : ℚ := tons * BTUH_PER_TON

/-- hvac.py: `btuh_to_tons(btuh) = btuh / BTUH_PER_TON`. -/
def btuh_to_tons (btuh : ℚ) : ℚ := btuh / BTUH_PER_TON

/-- hvac.py: `tons_to_mcf_per_hr(tons, eff, hv)`: raises `ValueError` when
`eff <= 0`, otherwise converts tons to Btu/h, to MMBtu/h, divides by the
efficiency (guarded positive, so a plain division) and converts the result
to MCF with `mmbtu_to_mcf` — whose division by `hv` is unguarded. -/
def tons_to_mcf_per_hr (tons eff hv_mmbtu_per_mcf : ℚ) : Except PyErr ℚ :=
  if eff ≤ 0 then .error (.valueError "Efficiency must be greater than zero.")
  else
    let btuh_required := tons_to_btuh tons
    let mmbtuh_required := btuh_to_mmbtuh btuh_required
    let input_mmbtuh := mmbtuh_required / eff
    mmbtu_to_mcf input_mmbtuh hv_mmbtu_per_mcf

end UtilityCalculator

namespace PJM

/-! ### String primitives used by client.py (models of the Python builtins) -/

/-- Model of Python `str.strip`: remove the characters satisfying `p` from
both ends of the character list. -/
def pyStrip (p : Char → Bool) (l : List Char) : List Char :=
  List.rdropWhile p (l.dropWhile p)

/-- Split a character list at every newline; always returns at least one
(possibly empty) piece. -/
def splitLinesAux : List Char → List (List Char)
  | [] => [[]]
  | c :: rest =>
    if c = '\n' then [] :: splitLinesAux rest
    else
      match splitLinesAux rest with
      | [] => [[c]]
      | h :: t => (c :: h) :: t

/-- Model of Python `str.splitlines` (newline-only): `""` yields no lines,
and a trailing newline does not produce a trailing empty line. -/
def pySplitlines (l : List Char) : List (List Char) :=
  if l.isEmpty then []
  else if l.getLast? = some '\n' then (splitLinesAux l).dropLast
  else splitLinesAux l

/-- Does `needle` occur as a contiguous run inside the list? -/
def subInfixOf (needle : List Char) : List Char → Bool
  | [] => needle.isEmpty
  | c :: rest => needle.isPrefixOf (c :: rest) || subInfixOf needle rest

/-- Model of Python `needle in hay` on strings. -/
def strContains (hay needle : String) : Bool := subInfixOf needle.data hay.data

/-- Model of Python `str.lower` (ASCII letters, which is all the client
compares). -/
def pyLowerStr (s : String) : String := ⟨s.data.map Char.toLower⟩

/-! ### client.py `_snake_case` -/

/-- client.py `_snake_case`, per-character step: an uppercase character
becomes an underscore followed by its lowercase form; a space or hyphen
becomes an underscore; any other character is emitted as-is. -/
def snakeExpand (c : Char) : List Char :=
  if c.isUpper then ['_', c.toLower]
  else if c = ' ' || c = '-' then ['_']
  else [c]

/-- client.py `_snake_case(name)`: expand every character, then strip
leading and trailing underscores from the whole name. -/
def snake_case (name : String) : String :=
  ⟨pyStrip (fun c => c = '_') ((name.data.map snakeExpand).flatten)⟩

/-! ### client.py `_looks_like_csv` and the `_parse_response` dispatch -/

/-- client.py `_looks_like_csv(text)`: take the first three lines of the
whitespace-stripped text (`text.strip().splitlines()[:3]`); if there are
none, answer no; otherwise answer whether any of those lines contains at
least one comma. -/
def looks_like_csv (text : String) : Bool :=
  let sample := (pySplitlines (pyStrip Char.isWhitespace text.data)).take 3
  if sample.isEmpty then false
  else sample.any fun line => 0 < line.count ','

/-- The dispatch condition of client.py `_parse_response`:
`"csv" in content_type or self._looks_like_csv(text)`, where the
content-type header was lowercased (absent header modelled as `""`). -/
def treats_as_csv (contentType body : String) : Bool :=
  strContains (pyLowerStr contentType) "csv" || looks_like_csv body

/-- The C2 claim's decision rule, written from the spec's words (not from
the code), for comparison with `treats_as_csv`: CSV iff the content-type
mentions CSV, or — when the content-type is absent — at least one of the
first three NON-EMPTY lines of the body contains a comma. -/
def specTreatsAsCSV (contentType body : String) : Bool :=
  strContains (pyLowerStr contentType) "csv"
    || (contentType = ""
        && (((pySplitlines (pyStrip Char.isWhitespace body.data)).filter
              (fun l => !l.isEmpty)).take 3).any fun line => 0 < line.count ',')

/-! ### Tabular data (model of the pandas DataFrame interface the client uses) -/

/-- A single cell of a tabular result. -/
inductive Cell where
  | str (s : String)
  | num (q : ℚ)
  | bool (b : Bool)
  | time (t : ℤ)
  | missing
  deriving DecidableEq

/-- Model of a pandas DataFrame at the interface client.py uses: an ordered
list of column names and row-major cells. -/
structure Table where
  cols : List String
  rows : List (List Cell)
  deriving DecidableEq

/-- `df.to_dict(orient="records")`: one ordered mapping per row, pairing the
column names with the row's cells in column order. -/
def toRecords (t : Table) : List (List (String × Cell)) :=
  t.rows.map fun r => t.cols.zip r

/-- Accumulate record keys in order of first appearance. -/
def addRecordKeys (acc : List String) (ks : List String) : List String :=
  ks.foldl (fun a k => if a.contains k then a else a ++ [k]) acc

/-- All keys appearing across the records, in order of first appearance. -/
def recordKeys (recs : List (List (String × Cell))) : List String :=
  recs.foldl (fun acc r => addRecordKeys acc (r.map Prod.fst)) []

/-- Look a key up in one record; a missing key yields the missing marker. -/
def lookupCell (r : List (String × Cell)) (k : String) : Cell :=
  match r.find? (fun kv => kv.fst = k) with
  | some kv => kv.snd
  | none => .missing

/-- Model of `pandas.DataFrame.from_records` on mapping-shaped records: the
columns are the union of the record keys in order of first appearance (so no
records mean no columns), and each row holds each column's value or the
missing marker. -/
def fromRecords (recs : List (List (String × Cell))) : Table :=
  let cols := recordKeys recs
  ⟨cols, recs.map fun r => cols.map (lookupCell r)⟩

/-! ### JSON (model of stdlib `json.loads` at the shapes the client handles) -/

/-- A decoded JSON value. -/
inductive Json where
  | null
  | bool (b : Bool)
  | num (q : ℚ)
  | str (s : String)
  | arr (elems : List Json)
  | obj (members : List (String × Json))

/-- Skip JSON whitespace. -/
def skipWs (l : List Char) : List Char := l.dropWhile Char.isWhitespace

/-- Scan a JSON string literal body (escape-free model) up to the closing
quote, returning the content and the remainder. -/
def jsonStringAux : List Char → Option (List Char × List Char)
  | [] => none
  | c :: rest =>
    if c = '"' then some ([], rest)
    else if c = '\\' then none
    else (jsonStringAux rest).map fun sr => (c :: sr.fst, sr.snd)

/-- Interpret a digit run as a natural number. -/
def digitsToNat (ds : List Char) : Nat :=
  ds.foldl (fun a c => 10 * a + (c.toNat - 48)) 0

/-- Scan a JSON number (integer or decimal fraction, optional minus). -/
def jsonNumber (cs : List Char) : Option (ℚ × List Char) :=
  let neg : Bool := match cs with | '-' :: _ => true | _ => false
  let cs1 := match cs with | '-' :: r => r | _ => cs
  let ds := cs1.takeWhile Char.isDigit
  let rest1 := cs1.dropWhile Char.isDigit
  if ds.isEmpty then none
  else
    let intPart : ℚ := (digitsToNat ds : ℚ)
    match rest1 with
    | '.' :: r2 =>
      let fs := r2.takeWhile Char.isDigit
      let rest2 := r2.dropWhile Char.isDigit
      if fs.isEmpty then none
      else
        let q := intPart + (digitsToNat fs : ℚ) / ((10 : ℚ) ^ fs.length)
        some (if neg then -q else q, rest2)
    | _ => some (if neg then -intPart else intPart, rest1)

mutual

/-- Fuel-bounded recursive-descent scan of one JSON value (model of the
stdlib decoder on escape-free input). -/
def jsonValue : Nat → List Char → Option (Json × List Char)
  | 0, _ => none
  | fuel + 1, cs =>
    match skipWs cs with
    | [] => none
    | 'n' :: 'u' :: 'l' :: 'l' :: rest => some (.null, rest)
    | 't' :: 'r' :: 'u' :: 'e' :: rest => some (.bool true, rest)
    | 'f' :: 'a' :: 'l' :: 's' :: 'e' :: rest => some (.bool false, rest)
    | '"' :: rest =>
      match jsonStringAux rest with
      | some sr => some (.str ⟨sr.fst⟩, sr.snd)
      | none => none
    | '[' :: rest =>
      match skipWs rest with
      | ']' :: r => some (.arr [], r)
      | r =>
        match jsonElems fuel r with
        | some vr => some (.arr vr.fst, vr.snd)
        | none => none
    | '{' :: rest =>
      match skipWs rest with
      | '}' :: r => some (.obj [], r)
      | r =>
        match jsonMembers fuel r with
        | some mr => some (.obj mr.fst, mr.snd)
        | none => none
    | other => (jsonNumber other).map fun qr => (.num qr.fst, qr.snd)

/-- Scan the comma-separated elements of a (nonempty) JSON array up to the
closing bracket. -/
def jsonElems : Nat → List Char → Option (List Json × List Char)
  | 0, _ => none
  | fuel + 1, cs =>
    match jsonValue fuel cs with
    | none => none
    | some vr =>
      match skipWs vr.snd with
      | ',' :: r2 =>
        match jsonElems fuel r2 with
        | some vsr => some (vr.fst :: vsr.fst, vsr.snd)
        | none => none
      | ']' :: r2 => some ([vr.fst], r2)
      | _ => none

/-- Scan the members of a (nonempty) JSON object up to the closing brace. -/
def jsonMembers : Nat → List Char → Option (List (String × Json) × List Char)
  | 0, _ => none
  | fuel + 1, cs =>
    match skipWs cs with
    | '"' :: rest =>
      match jsonStringAux rest with
      | some kr =>
        match skipWs kr.snd with
        | ':' :: r2 =>
          match jsonValue fuel r2 with
          | none => none
          | some vr =>
            match skipWs vr.snd with
            | ',' :: r4 =>
              match jsonMembers fuel r4 with
              | some msr => some ((⟨kr.fst⟩, vr.fst) :: msr.fst, msr.snd)
              | none => none
            | '}' :: r4 => some ([(⟨kr.fst⟩, vr.fst)], r4)
            | _ => none
        | _ => none
      | none => none
    | _ => none

end

/-- Model of stdlib `json.loads`: decode the whole text as one JSON value;
`none` stands for a raised decode error. -/
def json_loads (text : String) : Option Json :=
  match jsonValue (text.length + 1) text.data with
  | some vr => if (skipWs vr.snd).isEmpty then some vr.fst else none
  | none => none

/-- Is this JSON value a list? (`isinstance(value, list)`). -/
def isJsonArr : Json → Bool
  | .arr _ => true
  | _ => false

/-- The elements of a JSON list (and `[]` on anything else). -/
def jsonArrElems : Json → List Json
  | .arr xs => xs
  | _ => []

/-- A JSON scalar as a cell; nested structures degrade to the missing
marker (the feeds the client reads hold flat records). -/
def jsonToCell : Json → Cell
  | .str s => .str s
  | .num q => .num q
  | .bool b => .bool b
  | _ => .missing

/-- One JSON row as a record: an object contributes its members, anything
else contributes an empty record. -/
def recordOfJson : Json → List (String × Cell)
  | .obj ms => ms.map fun kv => (kv.fst, jsonToCell kv.snd)
  | _ => []

/-! ### client.py parsing helpers -/

/-- client.py `_parse_json(text)`: decode the text; if the top level is an
object, take the first member value that is a list (else `[]`); a top-level
list is taken directly; anything else yields no records; then build a
DataFrame from the records.  `none` stands for a raised decode error. -/
def parse_json (text : String) : Option Table :=
  match json_loads text with
  | none => none
  | some data =>
    let records : List Json :=
      match data with
      | .obj ms => (((ms.map Prod.snd).find? isJsonArr).map jsonArrElems).getD []
      | .arr xs => xs
      | _ => []
    some (fromRecords (records.map recordOfJson))

/-- client.py `_parse_csv(text)` through `pandas.read_csv`, modelled on the
simple unquoted CSV the feeds serve: the first line is the header, blank
lines are skipped, and cells are kept textual.  `none` stands for the
raised error on empty input. -/
def parse_csv (text : String) : Option Table :=
  match pySplitlines text.data with
  | [] => none
  | header :: rest =>
    let cols := (header.splitOn ',').map fun cs => (⟨cs⟩ : String)
    let dataRows := rest.filter fun l => !l.isEmpty
    some ⟨cols, dataRows.map fun l => (l.splitOn ',').map fun cs => Cell.str ⟨cs⟩⟩

/-- Errors raised by a single HTTP attempt inside `_get`. -/
inductive AttErr where
  | transport
  | httpStatus (code : Nat)
  | serverError (code : Nat)
  deriving DecidableEq

/-- Errors surfaced by the client: `ValueError(msg)`,
`PJMDataFetchError("Failed to fetch feed '<feed>'") from last_exc`,
`PJMDataFetchError("Unable to parse PJM response")`, and an error raised
inside an external library (`pandas.to_datetime` on unparseable input). -/
inductive ClientErr where
  | valueError (msg : String)
  | fetchFailure (feed : String) (cause : Option AttErr)
  | parseFailure
  | externalError
  deriving DecidableEq

/-- An HTTP response: status code, content-type header (`""` when absent)
and body text. -/
structure Response where
  status : Nat
  contentType : String
  body : String
  deriving DecidableEq

/-- client.py `_parse_response(response)`: dispatch on the lowercased
content-type and the comma heuristic, parse accordingly, and wrap any
parsing exception as `PJMDataFetchError("Unable to parse PJM response")`. -/
def parse_response (r : Response) : Except ClientErr Table :=
  let parsed := if treats_as_csv r.contentType r.body
    then parse_csv r.body else parse_json r.body
  match parsed with
  | some t => .ok t
  | none => .error .parseFailure

/-! ### client.py `_get`: the retry loop -/

/-- What one call to `requests.get` does on a given attempt: raise a
transport error, or return a response. -/
inductive Attempt where
  | raises
  | responds (status : Nat) (contentType : String) (body : String)
  deriving DecidableEq

/-- The two status checks of `_get`, in source order: `status >= 400`
raises `HTTP <code> from PJM`, then `500 <= status < 600` raises
`Server error <code> from PJM`. -/
def checkStatus (status : Nat) : Option AttErr :=
  if 400 ≤ status then some (.httpStatus status)
  else if 500 ≤ status ∧ status < 600 then some (.serverError status)
  else none

/-- One attempt of the `_get` loop body: a transport raise or the status
checks; a surviving response is returned. -/
def attemptOutcome : Attempt → Except AttErr Response
  | .raises => .error .transport
  | .responds s ct b =>
    match checkStatus s with
    | some e => .error e
    | none => .ok ⟨s, ct, b⟩

/-- `sleep_time = backoff_factor * (2**attempt)` then
`time.sleep(sleep_time or 1.0)`: a zero product is replaced by one
second. -/
def sleepSeconds (backoff : ℚ) (attempt : Nat) : ℚ :=
  let sleep_time := backoff * 2 ^ attempt
  if sleep_time = 0 then 1 else sleep_time

instance {ε α : Type} [DecidableEq ε] [DecidableEq α] : DecidableEq (Except ε α) := fun x y =>
  match x, y with
  | .error a, .error b => decidable_of_iff (a = b) (by simp)
  | .ok a, .ok b => decidable_of_iff (a = b) (by simp)
  | .error _, .ok _ => .isFalse (by simp)
  | .ok _, .error _ => .isFalse (by simp)

/-- Observable outcome of `_get`: how many attempts ran, the sleeps
performed between attempts (in order), and the returned response or raised
error. -/
structure GetTrace where
  attempts : Nat
  sleeps : List ℚ
  result : Except ClientErr Response
  deriving DecidableEq

/-- The retry loop of `_get`, unrolled over the remaining attempt budget:
attempt `i` either returns, or — when attempts remain — sleeps
`sleepSeconds backoff i` and retries; the final attempt's failure raises
`PJMDataFetchError` from the last observed error.  A zero budget falls
through the loop with `last_exc = None`. -/
def getAux (transport : Nat → Attempt) (feed : String) (backoff : ℚ) :
    Nat → Nat → GetTrace
  | _, 0 => ⟨0, [], .error (.fetchFailure feed none)⟩
  | i, fuel + 1 =>
    match attemptOutcome (transport i) with
    | .ok r => ⟨1, [], .ok r⟩
    | .error e =>
      if fuel = 0 then ⟨1, [], .error (.fetchFailure feed (some e))⟩
      else
        let rest := getAux transport feed backoff (i + 1) fuel
        ⟨rest.attempts + 1, sleepSeconds backoff i :: rest.sleeps, rest.result⟩

/-- client.py `_get(feed_name)` under a transport oracle and the retry
configuration `(max_retries, backoff_factor)`. -/
def pjm_get (transport : Nat → Attempt) (feed : String) (max_retries : Nat)
    (backoff : ℚ) : GetTrace :=
  getAux transport feed backoff 0 max_retries

/-! ### client.py normalization and output encoding -/

/-- client.py `_normalize_columns`: rename every column to its snake_case
form. -/
def normalize_columns (t : Table) : Table :=
  ⟨t.cols.map fun c => snake_case c, t.rows⟩

/-- The timestamp-column test of `_parse_timestamps`:
`any(key in col for key in ["date", "time", "timestamp"])`. -/
def isTimestampName (c : String) : Bool :=
  strContains c "date" || strContains c "time" || strContains c "timestamp"

/-- Modelled interface of `pandas.to_datetime` on one cell: a string whose
digits form at least a full `YYYYMMDD` date parses to the integer those
digits spell (order-faithful on the uniform ISO strings the feeds serve);
an already-parsed instant passes through; anything else fails to parse. -/
def pdToDatetime : Cell → Option ℤ
  | .str s =>
    let ds := s.data.filter Char.isDigit
    if 8 ≤ ds.length then some ((digitsToNat ds : ℤ)) else none
  | .time t => some t
  | _ => none

/-- `pandas.to_datetime(col, errors="coerce")` on one cell: parseable cells
become instants, unparseable ones the missing marker. -/
def cellToDatetime (c : Cell) : Cell :=
  match pdToDatetime c with
  | some t => .time t
  | none => .missing

/-- The cells of column `j`, top to bottom. -/
def colCells (t : Table) (j : Nat) : List Cell :=
  t.rows.map fun r => r.getD j .missing

/-- client.py `_parse_timestamps`: for every column whose name contains
"date", "time" or "timestamp", parse the column with `errors="coerce"` and
keep the parsed column unless every cell failed to parse. -/
def parse_timestamps (t : Table) : Table :=
  let convert : Nat → Bool := fun j =>
    isTimestampName (t.cols.getD j "")
      && (colCells t j).any fun c => (pdToDatetime c).isSome
  ⟨t.cols, t.rows.map fun r =>
    (List.range t.cols.length).map fun j =>
      if convert j then cellToDatetime (r.getD j .missing) else r.getD j .missing⟩

/-- `pandas.to_datetime` applied to an ISO-ish date string (used by
`fetch_gen_by_fuel` on the start/end bounds). -/
def pdToDatetimeStr (s : String) : Option ℤ := pdToDatetime (Cell.str s)

/-- The three output encodings of `fetch_feed`, plus nothing else. -/
inductive Out where
  | table (t : Table)
  | records (recs : List (List (String × Cell)))
  | csvText (s : String)
  deriving DecidableEq

/-- Render one cell for `df.to_csv` (textual cells verbatim). -/
def cellToString : Cell → String
  | .str s => s
  | .num q => toString q
  | .bool b => toString b
  | .time t => toString t
  | .missing => ""

/-- `df.to_csv(index=False)`: a header line and one comma-joined line per
row. -/
def to_csv (t : Table) : String :=
  String.intercalate "\n"
    (String.intercalate "," t.cols ::
      t.rows.map fun r => String.intercalate "," (r.map cellToString)) ++ "\n"

/-- client.py `_format_output(df, output_format)`: `"dataframe"` returns
the table, `"json"` the records, `"csv"` the CSV text, and anything else
raises `ValueError(f"Unknown output_format: {output_format}")`. -/
def format_output (df : Table) (output_format : String) : Except ClientErr Out :=
  if output_format = "dataframe" then .ok (.table df)
  else if output_format = "json" then .ok (.records (toRecords df))
  else if output_format = "csv" then .ok (.csvText (to_csv df))
  else .error (.valueError ("Unknown output_format: " ++ output_format))

/-! ### client.py public operations -/

/-- Observable outcome of a public fetch: attempts and sleeps of the
underlying `_get`, and the encoded value or raised error. -/
structure FetchTrace where
  attempts : Nat
  sleeps : List ℚ
  result : Except ClientErr Out
  deriving DecidableEq

/-- The table pipeline of `fetch_feed`, before output encoding:
`_get`, `_parse_response`, `_normalize_columns`, `_parse_timestamps`. -/
def fetch_feed_table (transport : Nat → Attempt) (feed : String)
    (max_retries : Nat) (backoff : ℚ) :
    Nat × List ℚ × Except ClientErr Table :=
  let g := pjm_get transport feed max_retries backoff
  match g.result with
  | .error e => (g.attempts, g.sleeps, .error e)
  | .ok resp =>
    match parse_response resp with
    | .error e => (g.attempts, g.sleeps, .error e)
    | .ok df => (g.attempts, g.sleeps, .ok (parse_timestamps (normalize_columns df)))

/-- client.py `fetch_feed(feed_name, params, output_format)`: run the
table pipeline, then `_format_output` — the output-format validation sits
at the very end of the pipeline, inside `_format_output`. -/
def fetch_feed (transport : Nat → Attempt) (feed : String) (max_retries : Nat)
    (backoff : ℚ) (output_format : String) : FetchTrace :=
  let f := fetch_feed_table transport feed max_retries backoff
  ⟨f.fst, f.snd.fst, f.snd.snd.bind fun df => format_output df output_format⟩

/-- The exact-match column renames of `_normalize_gen_by_fuel`. -/
def genByFuelRename (c : String) : String :=
  if c = "datetime_beginning_utc" then "timestamp"
  else if c = "datetime_beginning_ept" then "timestamp_ept"
  else if c = "fueltype" then "fuel_type"
  else c

/-- client.py `_normalize_gen_by_fuel(df)`: snake_case the columns, apply
the exact-match renames, then re-parse the `timestamp` column with
`errors="coerce"` when present. -/
def normalize_gen_by_fuel (df : Table) : Table :=
  let normalized := normalize_columns df
  let renamed : Table := ⟨normalized.cols.map genByFuelRename, normalized.rows⟩
  if renamed.cols.contains "timestamp" then
    ⟨renamed.cols, renamed.rows.map fun r =>
      (List.range renamed.cols.length).map fun j =>
        if renamed.cols.getD j "" = "timestamp" then cellToDatetime (r.getD j .missing)
        else r.getD j .missing⟩
  else renamed

/-- client.py `fetch_gen_by_fuel(start, end, row_count, output_format)`:
when both bounds are present, parse them (an unparseable bound raises
inside pandas) and raise
`ValueError("end must be greater than or equal to start")` when the end
instant precedes the start instant — all before any network call; then
fetch the `gen_by_fuel` feed as a table, normalize it, and encode it in the
caller's requested format.  `row_count` only adds a request parameter, which
the transport oracle absorbs. -/
def fetch_gen_by_fuel (transport : Nat → Attempt) (max_retries : Nat)
    (backoff : ℚ) (start end_ : Option String) (_row_count : Option Nat)
    (output_format : String) : FetchTrace :=
  let validation : Option ClientErr :=
    match start, end_ with
    | some s, some e =>
      match pdToDatetimeStr s, pdToDatetimeStr e with
      | some sv, some ev =>
        if ev < sv then some (.valueError "end must be greater than or equal to start")
        else none
      | _, _ => some .externalError
    | _, _ => none
  match validation with
  | some err => ⟨0, [], .error err⟩
  | none =>
    let f := fetch_feed_table transport "gen_by_fuel" max_retries backoff
    ⟨f.fst, f.snd.fst,
      f.snd.snd.bind fun df => format_output (normalize_gen_by_fuel df) output_format⟩

/-- The error of a failed attempt (`last_exc`), if any. -/
def errOf : Except AttErr Response → Option AttErr
  | .error e => some e
  | .ok _ => none

end PJM

/-! ## Auxiliary character lemmas -/

lemma char_ofNat_toNat_of_lt (m : Nat) (hm : m < 0xd800) : (Char.ofNat m).toNat = m := by
  rw [Char.ofNat, dif_pos (Or.inl hm)]
  simp [Char.ofNatAux, Char.toNat, UInt32.toNat]

lemma char_isUpper_range (c : Char) (h : c.isUpper = true) : 65 ≤ c.toNat ∧ c.toNat ≤ 90 := by
  simp only [Char.isUpper, Bool.and_eq_true, decide_eq_true_eq] at h
  obtain ⟨h1, h2⟩ := h
  rw [ge_iff_le, UInt32.le_def, BitVec.le_def] at h1
  rw [UInt32.le_def, BitVec.le_def] at h2
  exact ⟨h1, h2⟩

lemma toLower_toNat (c : Char) (h : c.isUpper = true) : c.toLower.toNat = c.toNat + 32 := by
  obtain ⟨h1, h2⟩ := char_isUpper_range c h
  rw [Char.toLower, if_pos ⟨h1, h2⟩]
  exact char_ofNat_toNat_of_lt _ (by omega)

lemma toLower_isUpper_false (c : Char) (h : c.isUpper = true) : (c.toLower).isUpper = false := by
  have hv := toLower_toNat c h
  obtain ⟨h1, h2⟩ := char_isUpper_range c h
  by_contra hne
  rw [Bool.not_eq_false] at hne
  obtain ⟨_, hb⟩ := char_isUpper_range _ hne
  omega

namespace PJM

/-! ## C7: `_snake_case` -/

lemma snakeExpand_mem_stable (x c : Char) (hc : c ∈ snakeExpand x) : snakeExpand c = [c] := by
  unfold snakeExpand at hc
  by_cases hx : x.isUpper
  · rw [if_pos hx] at hc
    simp only [List.mem_cons, List.not_mem_nil, or_false] at hc
    rcases hc with rfl | rfl
    · decide
    · have hnu := toLower_isUpper_false x hx
      have hnat := toLower_toNat x hx
      obtain ⟨ha, hb⟩ := char_isUpper_range x hx
      have hsp : (x.toLower = ' ' || x.toLower = '-') = false := by
        apply Bool.or_eq_false_iff.mpr
        constructor
        · apply decide_eq_false
          intro he
          have he2 : x.toLower.toNat = Char.toNat ' ' := congrArg Char.toNat he
          have h32 : Char.toNat ' ' = 32 := by decide
          rw [hnat, h32] at he2
          omega
        · apply decide_eq_false
          intro he
          have he2 : x.toLower.toNat = Char.toNat '-' := congrArg Char.toNat he
          have h45 : Char.toNat '-' = 45 := by decide
          rw [hnat, h45] at he2
          omega
      simp [snakeExpand, hnu, hsp]
  · rw [if_neg hx] at hc
    by_cases hs : (x = ' ' || x = '-') = true
    · rw [if_pos hs] at hc
      simp only [List.mem_cons, List.not_mem_nil, or_false] at hc
      subst hc
      decide
    · rw [if_neg hs] at hc
      simp only [List.mem_cons, List.not_mem_nil, or_false] at hc
      subst hc
      simp [snakeExpand, hx, hs]

lemma flatten_map_stable (m : List Char) (h : ∀ c ∈ m, snakeExpand c = [c]) :
    (m.map snakeExpand).flatten = m := by
  induction m with
  | nil => rfl
  | cons c cs ih =>
    simp only [List.map_cons, List.flatten_cons, h c (List.mem_cons_self c cs)]
    rw [ih (fun d hd => h d (List.mem_cons_of_mem c hd))]
    rfl

lemma body_stable (s : List Char) (c : Char) (hc : c ∈ (s.map snakeExpand).flatten) :
    snakeExpand c = [c] := by
  rw [List.mem_flatten] at hc
  obtain ⟨l, hl, hcl⟩ := hc
  rw [List.mem_map] at hl
  obtain ⟨x, _, rfl⟩ := hl
  exact snakeExpand_mem_stable x c hcl

lemma pyStrip_subset (p : Char → Bool) (l : List Char) : pyStrip p l ⊆ l :=
  fun _ hc => (List.dropWhile_sublist p).subset
    (( List.rdropWhile_prefix p _).subset hc)

lemma pyStrip_idem (p : Char → Bool) (l : List Char) :
    pyStrip p (pyStrip p l) = pyStrip p l := by
  unfold pyStrip
  have hu : List.dropWhile p (List.dropWhile p l) = List.dropWhile p l :=
    List.dropWhile_idempotent p l
  have hpre : List.rdropWhile p (List.dropWhile p l) <+: List.dropWhile p l :=
    List.rdropWhile_prefix p _
  have hdrop : List.dropWhile p (List.rdropWhile p (List.dropWhile p l))
      = List.rdropWhile p (List.dropWhile p l) := by
    rw [List.dropWhile_eq_self_iff]
    intro hl
    have hlu : 0 < (List.dropWhile p l).length := lt_of_lt_of_le hl hpre.length_le
    have hget := hpre.getElem (n := 0) hl
    have hself := List.dropWhile_eq_self_iff.mp hu hlu
    simpa [List.get_eq_getElem, hget] using hself
  rw [hdrop, List.rdropWhile_idempotent]

lemma snake_case_char_stable (s : String) (c : Char) (hc : c ∈ (snake_case s).data) :
    snakeExpand c = [c] :=
  body_stable s.data c (pyStrip_subset _ _ hc)

/-- C7: column-name normalization is idempotent — for every string,
normalizing the normalized form returns it unchanged; `"FuelType"`
normalizes to `"fuel_type"`, and mixed input such as
`"datetime_beginning_UTC"` maps to its (fully lower-case, underscore-only)
form — no uppercase, space or hyphen survives in any normalized name. -/
theorem snake_case_idempotent :
    (∀ s : String, snake_case (snake_case s) = snake_case s)
    ∧ snake_case "FuelType" = "fuel_type"
    ∧ snake_case "datetime_beginning_UTC" = "datetime_beginning__u_t_c"
    ∧ (∀ s : String, ∀ c ∈ (snake_case s).data,
        c.isUpper = false ∧ c ≠ ' ' ∧ c ≠ '-') := by
  refine ⟨fun s => ?_, by decide, by decide, fun s c hc => ?_⟩
  · show (⟨pyStrip _ (((snake_case s).data.map snakeExpand).flatten)⟩ : String) = snake_case s
    have hdata : (snake_case s).data
        = pyStrip (fun c => c = '_') ((s.data.map snakeExpand).flatten) := rfl
    rw [hdata, flatten_map_stable _ (fun c hc => body_stable s.data c (pyStrip_subset _ _ hc)),
      pyStrip_idem]
    rfl
  · have hst := snake_case_char_stable s c hc
    refine ⟨?_, ?_, ?_⟩
    · by_contra hup
      rw [Bool.not_eq_false] at hup
      rw [snakeExpand, if_pos hup] at hst
      exact absurd (congrArg List.length hst) (by simp)
    · rintro rfl
      rw [snakeExpand] at hst
      simp at hst
    · rintro rfl
      rw [snakeExpand] at hst
      simp at hst

/-- Witness for C7 at `s = "FuelType"` and the member `'f'`. -/
theorem snake_case_idempotent_witness :
    ('f').isUpper = false ∧ ('f') ≠ ' ' ∧ ('f') ≠ '-' :=
  snake_case_idempotent.2.2.2 "FuelType" 'f' (by decide)

/-! ## C9: the server-error branch of `_get` -/

/-- C9: the second status branch of `_get` (`Server error ...` for
`500 <= status < 600`) is unreachable: every status `>= 400` — client error
or server error alike — is already caught by the preceding `status >= 400`
check and takes the same retryable `HTTP <code>` failure path, and every
status `< 400` passes both checks. -/
theorem server_error_branch_unreachable (s : Nat) :
    (∀ c : Nat, checkStatus s ≠ some (.serverError c))
    ∧ (400 ≤ s → checkStatus s = some (.httpStatus s))
    ∧ (¬ 400 ≤ s → checkStatus s = none) := by
  unfold checkStatus
  by_cases h4 : 400 ≤ s
  · rw [if_pos h4]
    exact ⟨fun c h => by simp at h, fun _ => rfl, fun h => absurd h4 h⟩
  · rw [if_neg h4, if_neg (by omega)]
    exact ⟨fun c h => by simp at h, fun h => absurd h h4, fun _ => rfl⟩

/-- Witness for C9 at the statuses 404 and 503. -/
theorem server_error_branch_unreachable_witness :
    checkStatus 404 = some (.httpStatus 404)
    ∧ checkStatus 503 = some (.httpStatus 503) :=
  ⟨(server_error_branch_unreachable 404).2.1 (by norm_num),
   (server_error_branch_unreachable 503).2.1 (by norm_num)⟩

end PJM

namespace PJM

/-! ## C2: the CSV/JSON decision of `_parse_response` -/

/-- Counterexample to C2 as stated: an unambiguous non-CSV content-type
(`application/json`) IS overridden by the comma heuristic (the body
`"a,b"` is treated as CSV although the claim says JSON), and blank interior
lines are NOT skipped (for content-type absent and body `"x\n\n\ny,z"`, the
code inspects the lines `"x"`, `""`, `""` and treats the body as JSON,
while the claim's first-three-non-empty-lines rule would find the comma in
`"y,z"` and say CSV). -/
theorem treats_as_csv_counterexample :
    treats_as_csv "application/json" "a,b" = true
    ∧ specTreatsAsCSV "application/json" "a,b" = false
    ∧ treats_as_csv "" "x\n\n\ny,z" = false
    ∧ specTreatsAsCSV "" "x\n\n\ny,z" = true := by
  refine ⟨by decide, by decide, by decide, by decide⟩

/-- C2 as amended: the body is treated as CSV iff the lowercased
content-type contains "csv", or at least one of the first three lines of
the whitespace-stripped body — blank interior lines counted, not skipped —
contains a comma; the comma heuristic applies regardless of the
content-type, even an unambiguous non-CSV one. -/
theorem treats_as_csv_characterization (ct body : String) :
    treats_as_csv ct body = true ↔
      (strContains (pyLowerStr ct) "csv" = true
        ∨ ∃ line ∈ (pySplitlines (pyStrip Char.isWhitespace body.data)).take 3,
            ',' ∈ line) := by
  unfold treats_as_csv looks_like_csv
  rw [Bool.or_eq_true]
  refine or_congr Iff.rfl ?_
  by_cases hs : ((pySplitlines (pyStrip Char.isWhitespace body.data)).take 3).isEmpty
  · rw [if_pos hs]
    rw [List.isEmpty_iff] at hs
    simp [hs]
  · rw [if_neg hs, List.any_eq_true]
    constructor
    · rintro ⟨line, hline, hcount⟩
      exact ⟨line, hline, List.count_pos_iff.mp (by simpa using hcount)⟩
    · rintro ⟨line, hline, hmem⟩
      exact ⟨line, hline, by simpa using List.count_pos_iff.mpr hmem⟩

/-! ## C5: records round trip -/

/-- Counterexample to C5 as stated: a Tabular Result with zero rows and the
non-empty column set `["a"]` encodes to zero records, and the reconstructed
table has NO columns — the column set is not preserved. -/
theorem records_roundtrip_counterexample :
    toRecords ⟨["a"], []⟩ = []
    ∧ fromRecords (toRecords ⟨["a"], []⟩) = ⟨[], []⟩
    ∧ (fromRecords (toRecords ⟨["a"], []⟩)).cols ≠ (Table.mk ["a"] []).cols := by
  refine ⟨rfl, rfl, by decide⟩

lemma addRecordKeys_of_mem (acc ks : List String)
    (h : ∀ k ∈ ks, acc.contains k = true) : addRecordKeys acc ks = acc := by
  induction ks with
  | nil => rfl
  | cons k ks ih =>
    unfold addRecordKeys
    rw [List.foldl_cons, if_pos (h k (List.mem_cons_self k ks))]
    exact ih fun x hx => h x (List.mem_cons_of_mem k hx)

lemma contains_false_iff (l : List String) (x : String) :
    l.contains x = false ↔ x ∉ l := by
  rw [← Bool.not_eq_true]
  exact not_congr List.elem_iff

lemma addRecordKeys_of_disjoint (ks : List String) (hnd : ks.Nodup) :
    ∀ acc : List String, (∀ k ∈ ks, k ∉ acc) →
      addRecordKeys acc ks = acc ++ ks := by
  induction ks with
  | nil => intro acc _; simp [addRecordKeys]
  | cons k ks ih =>
    intro acc hdisj
    have hnd' : ks.Nodup := hnd.of_cons
    have hknot : k ∉ ks := (List.nodup_cons.mp hnd).1
    have hstep : addRecordKeys acc (k :: ks) = addRecordKeys (acc ++ [k]) ks := by
      unfold addRecordKeys
      rw [List.foldl_cons,
          (contains_false_iff acc k).mpr (hdisj k (List.mem_cons_self k ks))]
      simp
    rw [hstep, ih hnd' (acc ++ [k]) ?_]
    · simp
    · intro x hx
      have hxk : x ≠ k := fun he => hknot (he ▸ hx)
      have hxacc : x ∉ acc := hdisj x (List.mem_cons_of_mem k hx)
      simp [List.mem_append, hxacc, hxk]

end PJM

namespace PJM

lemma foldl_addRecordKeys_const (cols : List String)
    (rs : List (List (String × Cell)))
    (hkeys : ∀ rec ∈ rs, rec.map Prod.fst = cols) :
    rs.foldl (fun acc r => addRecordKeys acc (r.map Prod.fst)) cols = cols := by
  induction rs with
  | nil => rfl
  | cons r rs ih =>
    rw [List.foldl_cons, hkeys r (List.mem_cons_self r rs),
        addRecordKeys_of_mem cols cols (fun k hk => List.elem_iff.mpr hk)]
    exact ih fun x hx => hkeys x (List.mem_cons_of_mem r hx)

lemma recordKeys_const (cols : List String) (hnd : cols.Nodup)
    (r0 : List (String × Cell)) (rs : List (List (String × Cell)))
    (h0 : r0.map Prod.fst = cols)
    (hkeys : ∀ rec ∈ rs, rec.map Prod.fst = cols) :
    recordKeys (r0 :: rs) = cols := by
  unfold recordKeys
  rw [List.foldl_cons]
  have hfirst : addRecordKeys [] (r0.map Prod.fst) = cols := by
    rw [h0, addRecordKeys_of_disjoint cols hnd [] (by simp)]
    simp
  rw [hfirst]
  exact foldl_addRecordKeys_const cols rs hkeys

/-- C5 as amended: for a well-formed Tabular Result with no duplicate
column names and AT LEAST ONE row, encoding to records and reconstructing a
table preserves the column list and the row count; the row count is
preserved for every table, but a zero-row table reconstructs to the empty
table, so a non-empty column set is lost (see the counterexample). -/
theorem records_roundtrip (t : Table) (hnd : t.cols.Nodup)
    (hwf : ∀ r ∈ t.rows, r.length = t.cols.length) (hne : t.rows ≠ []) :
    (fromRecords (toRecords t)).cols = t.cols
    ∧ (fromRecords (toRecords t)).rows.length = t.rows.length := by
  have hkeys : ∀ rec ∈ toRecords t, rec.map Prod.fst = t.cols := by
    intro rec hrec
    rw [toRecords, List.mem_map] at hrec
    obtain ⟨r, hr, rfl⟩ := hrec
    exact List.map_fst_zip t.cols r (le_of_eq (hwf r hr).symm)
  have hcols : recordKeys (toRecords t) = t.cols := by
    cases hrecs : toRecords t with
    | nil =>
      exfalso
      apply hne
      have hlen := congrArg List.length hrecs
      simp only [toRecords, List.length_map, List.length_nil] at hlen
      exact List.length_eq_zero.mp hlen
    | cons r0 rs =>
      exact recordKeys_const t.cols hnd r0 rs
        (hkeys r0 (hrecs ▸ List.mem_cons_self r0 rs))
        (fun rec hrec => hkeys rec (hrecs ▸ List.mem_cons_of_mem r0 hrec))
  constructor
  · simpa [fromRecords] using hcols
  · simp [fromRecords, toRecords]

/-- Witness for C5 on a one-row, two-column table. -/
theorem records_roundtrip_witness :
    (fromRecords (toRecords ⟨["a", "b"], [[Cell.str "x", Cell.str "y"]]⟩)).cols = ["a", "b"]
    ∧ (fromRecords (toRecords ⟨["a", "b"],
        [[Cell.str "x", Cell.str "y"]]⟩)).rows.length = 1 :=
  records_roundtrip ⟨["a", "b"], [[Cell.str "x", Cell.str "y"]]⟩
    (by decide) (by decide) (by decide)

end PJM

namespace PJM

/-! ## Retry-loop lemmas (C3, C4) -/

lemma getAux_succ_eq (t : Nat → Attempt) (feed : String) (b : ℚ) (i fuel : Nat) :
    getAux t feed b i (fuel + 1)
      = match attemptOutcome (t i) with
        | .ok r => ⟨1, [], .ok r⟩
        | .error e =>
          if fuel = 0 then ⟨1, [], .error (.fetchFailure feed (some e))⟩
          else ⟨(getAux t feed b (i + 1) fuel).attempts + 1,
                sleepSeconds b i :: (getAux t feed b (i + 1) fuel).sleeps,
                (getAux t feed b (i + 1) fuel).result⟩ := rfl

lemma getAux_step_ok {t : Nat → Attempt} {feed : String} {b : ℚ} {i fuel : Nat}
    {r : Response} (h : attemptOutcome (t i) = .ok r) :
    getAux t feed b i (fuel + 1) = ⟨1, [], .ok r⟩ := by
  rw [getAux_succ_eq, h]

lemma getAux_step_last {t : Nat → Attempt} {feed : String} {b : ℚ} {i : Nat}
    {e : AttErr} (h : attemptOutcome (t i) = .error e) :
    getAux t feed b i 1 = ⟨1, [], .error (.fetchFailure feed (some e))⟩ := by
  rw [getAux_succ_eq, h]
  simp

lemma getAux_step_retry {t : Nat → Attempt} {feed : String} {b : ℚ} {i fuel : Nat}
    {e : AttErr} (h : attemptOutcome (t i) = .error e) (hf : fuel ≠ 0) :
    getAux t feed b i (fuel + 1)
      = ⟨(getAux t feed b (i + 1) fuel).attempts + 1,
          sleepSeconds b i :: (getAux t feed b (i + 1) fuel).sleeps,
          (getAux t feed b (i + 1) fuel).result⟩ := by
  rw [getAux_succ_eq, h]
  simp [hf]

lemma exists_error_of_isOk_false {x : Except AttErr Response}
    (h : x.isOk = false) : ∃ e, x = .error e := by
  cases x with
  | error e => exact ⟨e, rfl⟩
  | ok r => simp [Except.isOk, Except.toBool] at h

lemma exists_ok_of_isOk_true {x : Except AttErr Response}
    (h : x.isOk = true) : ∃ r, x = .ok r := by
  cases x with
  | error e => simp [Except.isOk, Except.toBool] at h
  | ok r => exact ⟨r, rfl⟩

lemma getAux_sleeps_getD (t : Nat → Attempt) (feed : String) (b : ℚ) :
    ∀ (fuel i j : Nat), j < (getAux t feed b i fuel).sleeps.length →
      (getAux t feed b i fuel).sleeps.getD j 0 = sleepSeconds b (i + j) := by
  intro fuel
  induction fuel with
  | zero => intro i j h; simp [getAux] at h
  | succ fuel ih =>
    intro i j h
    cases hA : attemptOutcome (t i) with
    | ok r =>
      rw [getAux_step_ok hA] at h
      simp at h
    | error e =>
      by_cases hf : fuel = 0
      · subst hf
        rw [getAux_step_last hA] at h
        simp at h
      · rw [@getAux_step_retry t feed b i fuel e hA hf] at h ⊢
        cases j with
        | zero => simp
        | succ j =>
          simp only [List.getD_cons_succ]
          have hlt : j < (getAux t feed b (i + 1) fuel).sleeps.length := by
            simpa using Nat.lt_of_succ_lt_succ (by simpa using h)
          rw [ih (i + 1) j hlt]
          congr 1
          omega

lemma getAux_success (t : Nat → Attempt) (feed : String) (b : ℚ) :
    ∀ (k fuel i : Nat), k < fuel →
      (∀ j, j < k → (attemptOutcome (t (i + j))).isOk = false) →
      (attemptOutcome (t (i + k))).isOk = true →
      (getAux t feed b i fuel).attempts = k + 1
        ∧ (getAux t feed b i fuel).sleeps.length = k
        ∧ ∃ r, (getAux t feed b i fuel).result = .ok r := by
  intro k
  induction k with
  | zero =>
    intro fuel i hk _ hok
    obtain ⟨f, rfl⟩ : ∃ f, fuel = f + 1 := ⟨fuel - 1, by omega⟩
    rw [Nat.add_zero] at hok
    obtain ⟨r, hA⟩ := exists_ok_of_isOk_true hok
    rw [getAux_step_ok hA]
    exact ⟨rfl, rfl, r, rfl⟩
  | succ k ih =>
    intro fuel i hk hfail hok
    obtain ⟨f, rfl⟩ : ∃ f, fuel = f + 1 := ⟨fuel - 1, by omega⟩
    have hf0 : f ≠ 0 := by omega
    have hA0 : (attemptOutcome (t i)).isOk = false := by
      have h0 := hfail 0 (Nat.succ_pos k)
      rwa [Nat.add_zero] at h0
    obtain ⟨e, hA⟩ := exists_error_of_isOk_false hA0
    have hrest := ih f (i + 1) (by omega)
      (fun j hj => by
        have hh := hfail (j + 1) (by omega)
        rwa [show i + (j + 1) = i + 1 + j by omega] at hh)
      (by rwa [show i + (k + 1) = i + 1 + k by omega] at hok)
    rw [getAux_step_retry hA hf0]
    refine ⟨?_, ?_, hrest.2.2⟩
    · simp [hrest.1]
    · simp [hrest.2.1]

lemma getAux_exhaust (t : Nat → Attempt) (feed : String) (b : ℚ) :
    ∀ (fuel i : Nat), 1 ≤ fuel →
      (∀ j, (attemptOutcome (t j)).isOk = false) →
      (getAux t feed b i fuel).attempts = fuel
        ∧ (getAux t feed b i fuel).result
            = .error (.fetchFailure feed (errOf (attemptOutcome (t (i + fuel - 1))))) := by
  intro fuel
  induction fuel with
  | zero => intro i h; omega
  | succ fuel ih =>
    intro i _ hfail
    obtain ⟨e, hA⟩ := exists_error_of_isOk_false (hfail i)
    by_cases hf : fuel = 0
    · subst hf
      rw [getAux_step_last hA]
      refine ⟨rfl, ?_⟩
      have hi : i + 1 - 1 = i := by omega
      rw [hi, hA]
      rfl
    · have hrest := ih (i + 1) (by omega) hfail
      rw [getAux_step_retry hA hf]
      refine ⟨by simp [hrest.1], ?_⟩
      have hidx : i + (fuel + 1) - 1 = i + 1 + fuel - 1 := by omega
      simp only [hidx]
      exact hrest.2

end PJM

namespace PJM

lemma attempt_raises_error : attemptOutcome Attempt.raises = .error .transport := rfl

lemma sleepSeconds_zero_backoff : sleepSeconds 0 0 = 1 := by
  simp [sleepSeconds]

lemma sleepSeconds_one_zero : sleepSeconds 1 0 = 1 := by
  norm_num [sleepSeconds]

lemma sleepSeconds_one_one : sleepSeconds 1 1 = 2 := by
  norm_num [sleepSeconds]

lemma pjm_get_fail2_b0_sleeps : (pjm_get (fun _ => .raises) "f" 2 0).sleeps = [1] := by
  show (getAux (fun _ => .raises) "f" 0 0 (1 + 1)).sleeps = [1]
  rw [@getAux_step_retry (fun _ => .raises) "f" 0 0 1 .transport rfl (by norm_num)]
  show sleepSeconds 0 0 :: (getAux (fun _ => .raises) "f" 0 1 1).sleeps = [1]
  rw [@getAux_step_last (fun _ => .raises) "f" 0 1 .transport rfl, sleepSeconds_zero_backoff]

lemma pjm_get_fail3_b1_sleeps (feed : String) :
    (pjm_get (fun _ => .raises) feed 3 1).sleeps = [1, 2] := by
  show (getAux (fun _ => .raises) feed 1 0 (2 + 1)).sleeps = [1, 2]
  rw [@getAux_step_retry (fun _ => .raises) feed 1 0 2 .transport rfl (by norm_num)]
  show sleepSeconds 1 0 :: (getAux (fun _ => .raises) feed 1 1 (1 + 1)).sleeps = [1, 2]
  rw [@getAux_step_retry (fun _ => .raises) feed 1 1 1 .transport rfl (by norm_num)]
  show sleepSeconds 1 0 :: sleepSeconds 1 1
      :: (getAux (fun _ => .raises) feed 1 2 1).sleeps = [1, 2]
  rw [@getAux_step_last (fun _ => .raises) feed 1 2 .transport rfl, sleepSeconds_one_zero,
    sleepSeconds_one_one]

/-- Counterexample to C3 as stated: `backoff_factor = 0` satisfies
`backoff_factor >= 0`, and with `max_attempts = 2` and a transport that
always fails the one sleep before the retry lasts 1 second, not the claimed
`0 × 2^0 = 0` seconds — `time.sleep(sleep_time or 1.0)` replaces a zero
product by the 1.0 s fallback. -/
theorem backoff_sleep_counterexample :
    (pjm_get (fun _ => .raises) "f" 2 0).sleeps = [1]
    ∧ (0 : ℚ) * 2 ^ 0 = 0
    ∧ (pjm_get (fun _ => .raises) "f" 2 0).sleeps ≠ [0 * 2 ^ 0] := by
  refine ⟨pjm_get_fail2_b0_sleeps, by norm_num, ?_⟩
  rw [pjm_get_fail2_b0_sleeps, show (0 : ℚ) * 2 ^ 0 = 0 by norm_num]
  simp

/-- C3 as amended: the sleep before the retry after failed attempt `i` is
`backoff_factor × 2^i` seconds whenever that product is nonzero, and the
1.0 s fallback of `time.sleep(sleep_time or 1.0)` when the product is zero
(`sleepSeconds`); with `backoff_factor = 1.0` and `max_attempts = 3` the
sleeps are 1 s then 2 s; and a response that passes the status checks on
any attempt is returned immediately — no further sleeps or attempts. -/
theorem backoff_sleep_schedule (t : Nat → Attempt) (feed : String) (m : Nat)
    (b : ℚ) (_hb : 0 ≤ b) :
    (∀ j, j < (pjm_get t feed m b).sleeps.length →
        (pjm_get t feed m b).sleeps.getD j 0 = sleepSeconds b j)
    ∧ (pjm_get (fun _ => .raises) "gen_by_fuel" 3 1).sleeps = [1, 2]
    ∧ (∀ i, i < m → (∀ j, j < i → (attemptOutcome (t j)).isOk = false) →
        (attemptOutcome (t i)).isOk = true →
        (pjm_get t feed m b).attempts = i + 1
          ∧ (pjm_get t feed m b).sleeps.length = i
          ∧ ∃ r, (pjm_get t feed m b).result = .ok r) := by
  refine ⟨fun j hj => ?_, pjm_get_fail3_b1_sleeps "gen_by_fuel", fun i him hfail hok => ?_⟩
  · have h := getAux_sleeps_getD t feed b m 0 j hj
    simpa using h
  · have h := getAux_success t feed b i m 0 him
      (fun j hj => by simpa using hfail j hj) (by simpa using hok)
    exact h

/-- Witness for C3: a transport failing once then succeeding, with
`max_attempts = 3`, `backoff_factor = 1`. -/
theorem backoff_sleep_schedule_witness :
    (pjm_get (fun i => if i = 0 then Attempt.raises else .responds 200 "" "ok")
        "f" 3 1).attempts = 2
    ∧ (pjm_get (fun i => if i = 0 then Attempt.raises else .responds 200 "" "ok")
        "f" 3 1).sleeps.length = 1 := by
  have hfails : ∀ j, j < 1 →
      (attemptOutcome ((fun i => if i = 0 then Attempt.raises
        else .responds 200 "" "ok") j)).isOk = false := by
    intro j hj
    interval_cases j
    decide
  have hok : (attemptOutcome ((fun i => if i = 0 then Attempt.raises
      else .responds 200 "" "ok") 1)).isOk = true := by decide
  have h := (backoff_sleep_schedule
      (fun i => if i = 0 then Attempt.raises else .responds 200 "" "ok")
      "f" 3 1 (by norm_num)).2.2 1 (by norm_num) hfails hok
  exact ⟨h.1, h.2.1⟩

/-- C4: with `max_attempts >= 1` and a transport that fails on every
attempt (transport error or disqualifying status), `_get` makes exactly
`max_attempts` attempts — not more — and then raises `PJMDataFetchError`
(`Failed to fetch feed ...`) whose cause is the last observed error. -/
theorem retry_exhaustion (t : Nat → Attempt) (feed : String) (m : Nat) (b : ℚ)
    (hm : 1 ≤ m) (hfail : ∀ j, (attemptOutcome (t j)).isOk = false) :
    (pjm_get t feed m b).attempts = m
    ∧ (pjm_get t feed m b).result
        = .error (.fetchFailure feed (errOf (attemptOutcome (t (m - 1))))) := by
  have h := getAux_exhaust t feed b m 0 hm hfail
  simpa using h

/-- Witness for C4: an always-raising transport with `max_attempts = 3`. -/
theorem retry_exhaustion_witness :
    (pjm_get (fun _ => .raises) "f" 3 1).attempts = 3
    ∧ (pjm_get (fun _ => .raises) "f" 3 1).result
        = .error (.fetchFailure "f" (some .transport)) := by
  have h := retry_exhaustion (fun _ => .raises) "f" 3 1 (by norm_num)
    (fun _ => rfl)
  refine ⟨h.1, ?_⟩
  rw [h.2]
  rfl

end PJM

namespace PJM

/-! ## Pipeline result-shape lemmas (C1, C6) -/

lemma getAux_result_shape (t : Nat → Attempt) (feed : String) (b : ℚ) :
    ∀ (fuel i : Nat),
      (∃ r, (getAux t feed b i fuel).result = .ok r)
      ∨ (∃ c, (getAux t feed b i fuel).result = .error (.fetchFailure feed c)) := by
  intro fuel
  induction fuel with
  | zero => intro i; right; exact ⟨none, rfl⟩
  | succ fuel ih =>
    intro i
    cases hA : attemptOutcome (t i) with
    | ok r => left; exact ⟨r, by rw [getAux_step_ok hA]⟩
    | error e =>
      by_cases hf : fuel = 0
      · subst hf
        right
        exact ⟨some e, by rw [getAux_step_last hA]⟩
      · rw [getAux_step_retry hA hf]
        exact ih (i + 1)

lemma getAux_attempts_pos (t : Nat → Attempt) (feed : String) (b : ℚ)
    (fuel i : Nat) (h : 1 ≤ fuel) : 1 ≤ (getAux t feed b i fuel).attempts := by
  obtain ⟨f, rfl⟩ : ∃ f, fuel = f + 1 := ⟨fuel - 1, by omega⟩
  cases hA : attemptOutcome (t i) with
  | ok r => rw [getAux_step_ok hA]
  | error e =>
    by_cases hf : f = 0
    · subst hf
      rw [getAux_step_last hA]
    · rw [getAux_step_retry hA hf]
      exact Nat.succ_le_succ (Nat.zero_le _)

lemma pjm_get_ok_m_pos {t : Nat → Attempt} {feed : String} {m : Nat} {b : ℚ}
    {r : Response} (hok : (pjm_get t feed m b).result = .ok r) : 1 ≤ m := by
  by_contra h
  have hm0 : m = 0 := by omega
  subst hm0
  simp [pjm_get, getAux] at hok

lemma parse_response_error {r : Response} {e : ClientErr}
    (h : parse_response r = .error e) : e = .parseFailure := by
  unfold parse_response at h
  cases hp : (if treats_as_csv r.contentType r.body
      then parse_csv r.body else parse_json r.body) with
  | some tb => rw [hp] at h; simp at h
  | none =>
    rw [hp] at h
    exact (Except.error.injEq _ _).mp h.symm

lemma fetch_feed_table_ok {t : Nat → Attempt} {feed : String} {m : Nat} {b : ℚ}
    {resp : Response} {df : Table}
    (hok : (pjm_get t feed m b).result = .ok resp)
    (hparse : parse_response resp = .ok df) :
    fetch_feed_table t feed m b
      = ((pjm_get t feed m b).attempts, (pjm_get t feed m b).sleeps,
          .ok (parse_timestamps (normalize_columns df))) := by
  unfold fetch_feed_table
  dsimp only
  rw [hok]
  dsimp only
  rw [hparse]

lemma format_output_unknown (df : Table) (fmt : String)
    (h1 : fmt ≠ "dataframe") (h2 : fmt ≠ "json") (h3 : fmt ≠ "csv") :
    format_output df fmt = .error (.valueError ("Unknown output_format: " ++ fmt)) := by
  unfold format_output
  rw [if_neg h1, if_neg h2, if_neg h3]

/-- Counterexample to C1 as stated: calling `fetch_feed` with the invalid
output format `"xml"` against a transport that serves a well-formed CSV
response DOES perform a network call (one attempt runs) before the
`ValueError` is raised — the validation sits inside `_format_output`, the
last step of the pipeline, not before the HTTP GET. -/
theorem fetch_feed_bad_format_counterexample :
    (fetch_feed (fun _ => .responds 200 "text/csv" "a,b\n1,2")
        "gen_by_fuel" 3 1 "xml").attempts = 1
    ∧ (fetch_feed (fun _ => .responds 200 "text/csv" "a,b\n1,2")
        "gen_by_fuel" 3 1 "xml").result
        = .error (.valueError "Unknown output_format: xml") := by
  exact ⟨by decide, by decide⟩

/-- C1 as amended: an `output_format` outside
{dataframe, json, csv} always makes `fetch_feed` raise
`ValueError("Unknown output_format: ...")`, but only AFTER the network call
and response parsing: whenever `_get` returned a response that parses, at
least one HTTP attempt was performed and the result is the `ValueError`
from `_format_output`, the final step. -/
theorem fetch_feed_bad_format (t : Nat → Attempt) (feed : String) (m : Nat)
    (b : ℚ) (fmt : String) (resp : Response) (df : Table)
    (hfmt1 : fmt ≠ "dataframe") (hfmt2 : fmt ≠ "json") (hfmt3 : fmt ≠ "csv")
    (hok : (pjm_get t feed m b).result = .ok resp)
    (hparse : parse_response resp = .ok df) :
    1 ≤ (fetch_feed t feed m b fmt).attempts
    ∧ (fetch_feed t feed m b fmt).result
        = .error (.valueError ("Unknown output_format: " ++ fmt)) := by
  have htab := fetch_feed_table_ok hok hparse
  constructor
  · show 1 ≤ (fetch_feed_table t feed m b).fst
    rw [htab]
    exact getAux_attempts_pos t feed b m 0 (pjm_get_ok_m_pos hok)
  · show (fetch_feed_table t feed m b).snd.snd.bind (fun df => format_output df fmt)
        = .error (.valueError ("Unknown output_format: " ++ fmt))
    rw [htab]
    show format_output (parse_timestamps (normalize_columns df)) fmt
        = .error (.valueError ("Unknown output_format: " ++ fmt))
    exact format_output_unknown _ fmt hfmt1 hfmt2 hfmt3

/-- Witness for C1's amended theorem at the same concrete transport. -/
theorem fetch_feed_bad_format_witness :
    1 ≤ (fetch_feed (fun _ => .responds 200 "text/csv" "a,b\n1,2")
        "gen_by_fuel" 3 1 "xml").attempts
    ∧ (fetch_feed (fun _ => .responds 200 "text/csv" "a,b\n1,2")
        "gen_by_fuel" 3 1 "xml").result
        = .error (.valueError ("Unknown output_format: " ++ "xml")) :=
  fetch_feed_bad_format (fun _ => .responds 200 "text/csv" "a,b\n1,2")
    "gen_by_fuel" 3 1 "xml" ⟨200, "text/csv", "a,b\n1,2"⟩
    ⟨["a", "b"], [[Cell.str "1", Cell.str "2"]]⟩
    (by decide) (by decide) (by decide) (by decide) (by decide)

end PJM

namespace PJM

lemma pjm_get_result_shape (t : Nat → Attempt) (feed : String) (m : Nat) (b : ℚ) :
    (∃ r, (pjm_get t feed m b).result = .ok r)
    ∨ (∃ c, (pjm_get t feed m b).result = .error (.fetchFailure feed c)) :=
  getAux_result_shape t feed b m 0

lemma fetch_feed_table_result_shape (t : Nat → Attempt) (feed : String)
    (m : Nat) (b : ℚ) :
    (∃ df, (fetch_feed_table t feed m b).snd.snd = .ok df)
    ∨ (∃ c, (fetch_feed_table t feed m b).snd.snd = .error (.fetchFailure feed c))
    ∨ (fetch_feed_table t feed m b).snd.snd = .error .parseFailure := by
  unfold fetch_feed_table
  dsimp only
  rcases pjm_get_result_shape t feed m b with ⟨r, hr⟩ | ⟨c, hc⟩
  · rw [hr]
    dsimp only
    cases hp : parse_response r with
    | ok df =>
      dsimp only
      exact .inl ⟨parse_timestamps (normalize_columns df), rfl⟩
    | error e =>
      have he := parse_response_error hp
      subst he
      dsimp only
      exact .inr (.inr rfl)
  · rw [hc]
    dsimp only
    exact .inr (.inl ⟨c, rfl⟩)

lemma format_output_error {df : Table} {fmt : String} {e : ClientErr}
    (h : format_output df fmt = .error e) :
    e = .valueError ("Unknown output_format: " ++ fmt) := by
  unfold format_output at h
  by_cases h1 : fmt = "dataframe"
  · rw [if_pos h1] at h
    simp at h
  · rw [if_neg h1] at h
    by_cases h2 : fmt = "json"
    · rw [if_pos h2] at h
      simp at h
    · rw [if_neg h2] at h
      by_cases h3 : fmt = "csv"
      · rw [if_pos h3] at h
        simp at h
      · rw [if_neg h3] at h
        exact ((Except.error.injEq _ _).mp h.symm)

lemma unknown_format_msg_ne (fmt : String) :
    ("Unknown output_format: " ++ fmt) ≠ "end must be greater than or equal to start" := by
  intro h
  have hdata : ("Unknown output_format: " ++ fmt).data
      = ("end must be greater than or equal to start" : String).data := by rw [h]
  rw [String.data_append] at hdata
  have hdata2 : 'U' :: ("nknown output_format: ".data ++ fmt.data)
      = 'e' :: "nd must be greater than or equal to start".data := hdata
  injection hdata2 with h1 _
  exact absurd h1 (by decide)

lemma bind_format_no_range_error (res : Except ClientErr Table) (feed fmt : String)
    (g : Table → Table)
    (hshape : (∃ df, res = .ok df) ∨ (∃ c, res = .error (.fetchFailure feed c))
      ∨ res = .error .parseFailure) :
    res.bind (fun df => format_output (g df) fmt)
      ≠ .error (.valueError "end must be greater than or equal to start") := by
  intro hcontra
  rcases hshape with ⟨df, rfl⟩ | ⟨c, rfl⟩ | rfl
  · have hfmt : format_output (g df) fmt
        = .error (.valueError "end must be greater than or equal to start") := hcontra
    have he := format_output_error hfmt
    have hmsg : "end must be greater than or equal to start"
        = "Unknown output_format: " ++ fmt := (ClientErr.valueError.injEq _ _).mp he
    exact absurd hmsg.symm (unknown_format_msg_ne fmt)
  · simp [Except.bind] at hcontra
  · simp [Except.bind] at hcontra

/-- C6: when both `start` and `end` are present and both parse to instants,
`fetch_gen_by_fuel` raises `ValueError("end must be greater than or equal
to start")` before any network call (zero attempts, zero sleeps) exactly
when `end < start`; when `end >= start`, or when at most one bound is
present, the date-range `ValueError` is never raised, whatever the
transport, retry configuration or output format do. -/
theorem gen_by_fuel_range_validation (t : Nat → Attempt) (m : Nat) (b : ℚ)
    (rc : Option Nat) (fmt : String) :
    (∀ s e sv ev, pdToDatetimeStr s = some sv → pdToDatetimeStr e = some ev →
      ev < sv →
      fetch_gen_by_fuel t m b (some s) (some e) rc fmt
        = ⟨0, [], .error (.valueError "end must be greater than or equal to start")⟩)
    ∧ (∀ s e sv ev, pdToDatetimeStr s = some sv → pdToDatetimeStr e = some ev →
      sv ≤ ev →
      (fetch_gen_by_fuel t m b (some s) (some e) rc fmt).result
        ≠ .error (.valueError "end must be greater than or equal to start"))
    ∧ (∀ e, (fetch_gen_by_fuel t m b none e rc fmt).result
        ≠ .error (.valueError "end must be greater than or equal to start"))
    ∧ (∀ s, (fetch_gen_by_fuel t m b (some s) none rc fmt).result
        ≠ .error (.valueError "end must be greater than or equal to start")) := by
  refine ⟨fun s e sv ev hs he hlt => ?_, fun s e sv ev hs he hle => ?_,
    fun e => ?_, fun s => ?_⟩
  · unfold fetch_gen_by_fuel
    dsimp only
    rw [hs, he]
    dsimp only
    rw [if_pos hlt]
  · unfold fetch_gen_by_fuel
    dsimp only
    rw [hs, he]
    dsimp only
    rw [if_neg (not_lt.mpr hle)]
    dsimp only
    exact bind_format_no_range_error _ "gen_by_fuel" fmt normalize_gen_by_fuel
      (fetch_feed_table_result_shape t "gen_by_fuel" m b)
  · unfold fetch_gen_by_fuel
    dsimp only
    exact bind_format_no_range_error _ "gen_by_fuel" fmt normalize_gen_by_fuel
      (fetch_feed_table_result_shape t "gen_by_fuel" m b)
  · unfold fetch_gen_by_fuel
    dsimp only
    exact bind_format_no_range_error _ "gen_by_fuel" fmt normalize_gen_by_fuel
      (fetch_feed_table_result_shape t "gen_by_fuel" m b)

/-- Witness for C6: `start = 2024-01-02`, `end = 2024-01-01` raises the
range error with no network attempt. -/
theorem gen_by_fuel_range_validation_witness :
    fetch_gen_by_fuel (fun _ => .raises) 3 1
        (some "2024-01-02") (some "2024-01-01") none "dataframe"
      = ⟨0, [], .error (.valueError "end must be greater than or equal to start")⟩ :=
  (gen_by_fuel_range_validation (fun _ => .raises) 3 1 none "dataframe").1
    "2024-01-02" "2024-01-01" 20240102 20240101
    (by decide) (by decide) (by decide)

end PJM

namespace UtilityCalculator

/-- C8: for `eff > 0`, `tons_to_mcf_per_hr` coincides with the composition
`mmbtu_to_mcf (btuh_to_mmbtuh (tons_to_btuh tons) / eff) hv`, and for
`hv ≠ 0` it yields `(tons * 12000 / 1e6) / eff / hv`; for `eff ≤ 0` it
raises `ValueError` before performing the computation; moreover
`tons_to_btuh 1 = 12000` and `tons_to_mcf_per_hr 100 0 hv` raises. -/
theorem tons_to_mcf_per_hr_spec (tons eff hv : ℚ) :
    (0 < eff →
      tons_to_mcf_per_hr tons eff hv
          = mmbtu_to_mcf (btuh_to_mmbtuh (tons_to_btuh tons) / eff) hv
        ∧ (hv ≠ 0 →
          tons_to_mcf_per_hr tons eff hv = .ok (tons * 12000 / 1000000 / eff / hv)))
    ∧ (eff ≤ 0 →
      tons_to_mcf_per_hr tons eff hv
          = .error (.valueError "Efficiency must be greater than zero."))
    ∧ tons_to_btuh 1 = 12000
    ∧ tons_to_mcf_per_hr 100 0 HEATING_VALUE_MMBTU_PER_MCF
        = .error (.valueError "Efficiency must be greater than zero.") := by
  refine ⟨fun heff => ⟨?_, fun hhv => ?_⟩, fun heff => ?_, ?_, ?_⟩
  · simp only [tons_to_mcf_per_hr, if_neg (not_le.mpr heff)]
  · simp only [tons_to_mcf_per_hr, if_neg (not_le.mpr heff), mmbtu_to_mcf, pyDiv,
      if_neg hhv, btuh_to_mmbtuh, tons_to_btuh, BTUH_PER_TON, BTU_PER_MMBTU]
  · simp only [tons_to_mcf_per_hr, if_pos heff]
  · norm_num [tons_to_btuh, BTUH_PER_TON]
  · simp only [tons_to_mcf_per_hr, if_pos (le_refl (0 : ℚ))]

/-- Witness for C8 at `tons = 2`, `eff = 1`, `hv = 1`. -/
theorem tons_to_mcf_per_hr_spec_witness :
    tons_to_mcf_per_hr 2 1 1 = .ok (2 * 12000 / 1000000 / 1 / 1) :=
  ((tons_to_mcf_per_hr_spec 2 1 1).1 (by norm_num)).2 (by norm_num)

/-- C10: `mmbtu_to_mcf` and `dth_to_mcf` divide by the heating value with
no guard — a zero heating value raises `ZeroDivisionError`, never
`ValueError`, while any nonzero heating value yields the quotient; and
`tons_to_mcf_per_hr` guards only `eff`, so with a positive efficiency and a
zero heating value it too raises `ZeroDivisionError`. -/
theorem heating_value_zero_division (v : ℚ) :
    mmbtu_to_mcf v 0 = .error .zeroDivision
    ∧ dth_to_mcf v 0 = .error .zeroDivision
    ∧ (∀ hv : ℚ, hv ≠ 0 → mmbtu_to_mcf v hv = .ok (v / hv) ∧ dth_to_mcf v hv = .ok (v / hv))
    ∧ (∀ tons eff : ℚ, 0 < eff →
        tons_to_mcf_per_hr tons eff 0 = .error .zeroDivision) := by
  refine ⟨?_, ?_, fun hv hhv => ⟨?_, ?_⟩, fun tons eff heff => ?_⟩
  · simp [mmbtu_to_mcf, pyDiv]
  · simp [dth_to_mcf, mmbtu_to_mcf, pyDiv]
  · simp [mmbtu_to_mcf, pyDiv, hhv]
  · simp [dth_to_mcf, mmbtu_to_mcf, pyDiv, hhv]
  · simp [tons_to_mcf_per_hr, if_neg (not_le.mpr heff), mmbtu_to_mcf, pyDiv]

/-- Witness for C10 at `v = 3`, `hv = 2` and `tons = 1`, `eff = 1`. -/
theorem heating_value_zero_division_witness :
    mmbtu_to_mcf 3 2 = .ok (3 / 2)
    ∧ tons_to_mcf_per_hr 1 1 0 = .error .zeroDivision :=
  ⟨((heating_value_zero_division 3).2.2.1 2 (by norm_num)).1,
   (heating_value_zero_division 1).2.2.2 1 1 (by norm_num)⟩

end UtilityCalculator
